import Mathlib

/-!
Verification of the pressure-sensor driver in `src/pressure.rs`.

The driver (`Pressure`) owns an I2C bus handle and a signed `baseline`
captured at initialization.  The bus itself (rppal's `I2c`) is external to
the repository, so it is embedded abstractly: a `BusEnv` records whether
each fallible bus operation succeeds and the outcome of each successive
2-byte read transaction, and an `I2c` handle is an environment together
with the number of read transactions already issued.  An I2C read
transaction on this device either fails or delivers exactly two bytes
(the source reads into a fixed buffer `[0u8; 2]`), which is why
`TxnResult.ok` carries exactly two bytes.

The Rust source logs with the `log` crate.  `log::debug!` evaluates its
arguments only when debug-level logging is enabled, and `init` contains
`i2c.clock_speed()?` inside such a macro call, so the clock-speed query
(and the propagation of its failure by `?`) happens exactly when debug
logging is enabled; `init` therefore takes a `debugEnabled` flag.

Rust `i32` division truncates toward zero, which is `Int.tdiv`; Mathlib's
`/` on `Int` is Euclidean division and is not used in the embedding.
All arithmetic is embedded over `Int`/`Nat`; that no intermediate value
leaves the 32-bit signed range (so the `Int` embedding of the `i32`
arithmetic is exact) is proved as the safety claim C10.
-/

namespace Haxo

/-- Outcome of a single 2-byte I2C read transaction: the transaction
fails, or it delivers exactly two bytes `b0` (first) and `b1` (second). -/
inductive TxnResult where
  | fail : TxnResult
  | ok : Fin 256 → Fin 256 → TxnResult
  deriving DecidableEq

/-- The environment a driver run is performed against: whether `I2c::new`
succeeds, whether the `clock_speed` metadata query succeeds, whether
`set_slave_address` succeeds, and the outcome `txns n` of the n-th read
transaction issued on the bus (counting from 0). -/
structure BusEnv where
  newOk : Bool
  clockSpeedOk : Bool
  setAddrOk : Bool
  txns : Nat → TxnResult

/-- An open I2C handle: its environment, the number of read transactions
already issued through it, and the slave address configured on it. -/
structure I2c where
  env : BusEnv
  pos : Nat
  addr : Option Nat

/-- Provenance of a `Box<dyn Error>` escaping the driver:
`busUnavailable` from a failed `I2c::new`, `clockSpeedError` from the
`clock_speed()?` inside the `debug!` call, `configurationError` from a
failed `set_slave_address`, `readFailure` from a failed bus read. -/
inductive DriverError where
  | busUnavailable : DriverError
  | clockSpeedError : DriverError
  | configurationError : DriverError
  | readFailure : DriverError
  deriving DecidableEq

/-- `const ADDR_PRESSURE_SENSOR: u16 = 0x4D`. -/
def ADDR_PRESSURE_SENSOR : Nat := 0x4D

/-- `pub struct Pressure { i2c: rppal::i2c::I2c, baseline: i32 }`. -/
structure Pressure where
  i2c : I2c
  baseline : Int

/-- `Pressure::read_io`: issue one read transaction for 2 bytes; on
success decode `result = reg[0]; result <<= 8; result |= reg[1];
result = result - 2048`.  The returned handle reflects that a transaction
was attempted (`pos` advances) whether or not it succeeded, matching the
`&mut` borrow of the handle in the source. -/
def Pressure.read_io (i2c : I2c) : Except DriverError Int × I2c :=
  match i2c.env.txns i2c.pos with
  | .fail => (.error .readFailure, { i2c with pos := i2c.pos + 1 })
  | .ok b0 b1 =>
      (.ok ((((b0.val <<< 8) ||| b1.val : Nat) : Int) - 2048),
       { i2c with pos := i2c.pos + 1 })

/-- `Pressure::init`: create the bus handle (fails: `BusUnavailable`);
when debug logging is enabled, query `clock_speed()?` for the log line
(its failure propagates); set the slave address to
`ADDR_PRESSURE_SENSOR` (fails: `ConfigurationError`); perform one raw
read to capture `baseline` (fails: `ReadFailure`). -/
def Pressure.init (debugEnabled : Bool) (env : BusEnv) :
    Except DriverError Pressure :=
  if env.newOk then
    if debugEnabled && !env.clockSpeedOk then
      .error .clockSpeedError
    else if env.setAddrOk then
      match Pressure.read_io
          { env := env, pos := 0, addr := some ADDR_PRESSURE_SENSOR } with
      | (.error e, _) => .error e
      | (.ok baseline, i2c') => .ok { i2c := i2c', baseline := baseline }
    else
      .error .configurationError
  else
    .error .busUnavailable

/-- `const PRESSURE_SCALING_FACTOR: i32 = 6`. -/
def PRESSURE_SCALING_FACTOR : Int := 6

/-- `Pressure::read`: one raw read, then
`min((pressure - self.baseline) / PRESSURE_SCALING_FACTOR, 127)` in `i32`
arithmetic (`Int.tdiv` is truncation toward zero, the `i32 /`).  The
second component is the driver state after the call. -/
def Pressure.read (p : Pressure) : Except DriverError Int × Pressure :=
  match Pressure.read_io p.i2c with
  | (.error e, i2c') => (.error e, { p with i2c := i2c' })
  | (.ok pressure, i2c') =>
      (.ok (min (Int.tdiv (pressure - p.baseline) PRESSURE_SCALING_FACTOR) 127),
       { p with i2c := i2c' })

/-- The raw value decoded from a successful 2-byte transaction, as plain
arithmetic: big-endian 16-bit unsigned decode minus the 2048 offset. -/
def rawValue (b0 b1 : Fin 256) : Int :=
  (b0.val : Int) * 256 + (b1.val : Int) - 2048

/-- The shift-and-or decode of the source equals big-endian base-256
arithmetic, because the low 8 bits of `b0 <<< 8` are zero. -/
lemma shiftLeft_lor_eq (b0 b1 : Fin 256) :
    ((b0.val <<< 8) ||| b1.val : Nat) = b0.val * 256 + b1.val := by
  have hb1 : b1.val < 2 ^ 8 := b1.isLt
  calc (b0.val <<< 8) ||| b1.val
      = 2 ^ 8 * b0.val ||| b1.val := by rw [Nat.shiftLeft_eq, Nat.mul_comm]
    _ = 2 ^ 8 * b0.val + b1.val := (Nat.mul_add_lt_is_or hb1 b0.val).symm
    _ = b0.val * 256 + b1.val := by ring

/-- A ready driver over transaction outcomes `t` with baseline `b`, as
`init` would produce it (address configured, one transaction consumed
when `pos` is 1; witnesses below choose `pos = 0` so that the next
transaction is `t 0`). -/
def mkDriver (t : Nat → TxnResult) (b : Int) : Pressure :=
  { i2c := { env := { newOk := true, clockSpeedOk := true, setAddrOk := true,
                      txns := t },
             pos := 0, addr := some ADDR_PRESSURE_SENSOR },
    baseline := b }

/-- On a successful transaction delivering bytes `b0 b1`, `read` returns
the clamped scaled value of `rawValue b0 b1` against the baseline. -/
lemma read_ok_eq (p : Pressure) (b0 b1 : Fin 256)
    (h : p.i2c.env.txns p.i2c.pos = .ok b0 b1) :
    (Pressure.read p).1 =
      .ok (min (Int.tdiv (rawValue b0 b1 - p.baseline) 6) 127) := by
  have hlor := shiftLeft_lor_eq b0 b1
  simp only [Pressure.read, Pressure.read_io, h, PRESSURE_SCALING_FACTOR,
    rawValue, hlor]
  push_cast
  ring_nf

/-- C2: for any two bytes `(b0, b1)` obtained from the bus, `read_io`
returns the big-endian 16-bit unsigned decode `(b0 <<< 8) ||| b1` minus
the fixed offset 2048, equal to `b0 * 256 + b1 - 2048` as plain signed
arithmetic (`rawValue`).  The witness checks bytes `(0x08, 0x00) ↦ 0`. -/
theorem read_io_decode (i2c : I2c) (b0 b1 : Fin 256)
    (h : i2c.env.txns i2c.pos = .ok b0 b1) :
    (Pressure.read_io i2c).1 = .ok (rawValue b0 b1) := by
  have hlor := shiftLeft_lor_eq b0 b1
  simp only [Pressure.read_io, h, rawValue, hlor]
  push_cast
  ring_nf

/-- C2 witness: bytes `(0x08, 0x00)` decode to raw value 0. -/
theorem read_io_decode_witness :
    (mkDriver (fun _ => .ok 8 0) 0).i2c.env.txns
        (mkDriver (fun _ => .ok 8 0) 0).i2c.pos = .ok 8 0 ∧
    (Pressure.read_io (mkDriver (fun _ => .ok 8 0) 0).i2c).1 = .ok 0 := by
  refine ⟨rfl, ?_⟩
  have h := read_io_decode (mkDriver (fun _ => .ok 8 0) 0).i2c 8 0 rfl
  rw [h]
  simp only [Except.ok.injEq]
  decide

/-- C8: every `read_io` call issues exactly one bus transaction — the
transaction counter advances by exactly one whether the transaction
succeeds or fails, and the environment is untouched — and the returned
value is decoded from exactly the two bytes of that transaction (a
successful transaction delivers exactly two bytes by construction of
`TxnResult`, mirroring the fixed 2-byte buffer of the source). -/
theorem read_io_one_txn (i2c : I2c) :
    (Pressure.read_io i2c).2.pos = i2c.pos + 1 ∧
    (Pressure.read_io i2c).2.env = i2c.env ∧
    (∀ b0 b1 : Fin 256, i2c.env.txns i2c.pos = .ok b0 b1 →
      (Pressure.read_io i2c).1 =
        .ok ((((b0.val <<< 8) ||| b1.val : Nat) : Int) - 2048)) ∧
    (i2c.env.txns i2c.pos = .fail →
      (Pressure.read_io i2c).1 = .error .readFailure) := by
  refine ⟨?_, ?_, ?_, ?_⟩
  · unfold Pressure.read_io
    split <;> rfl
  · unfold Pressure.read_io
    split <;> rfl
  · intro b0 b1 h
    simp only [Pressure.read_io, h]
  · intro h
    simp only [Pressure.read_io, h]

/-- C8 witness: on a concrete handle, one transaction is consumed and
the delivered bytes `(11, 0)` decode to `11 * 256 - 2048 = 768`. -/
theorem read_io_one_txn_witness :
    (Pressure.read_io (mkDriver (fun _ => .ok 11 0) 0).i2c).2.pos =
      (mkDriver (fun _ => .ok 11 0) 0).i2c.pos + 1 ∧
    (Pressure.read_io (mkDriver (fun _ => .ok 11 0) 0).i2c).1 = .ok 768 := by
  have h := read_io_one_txn (mkDriver (fun _ => .ok 11 0) 0).i2c
  refine ⟨h.1, ?_⟩
  rw [h.2.2.1 11 0 rfl]
  simp only [Except.ok.injEq]
  decide

/-- C1: for every baseline `B` held by the driver and every raw reading
`R` delivered by the bus on a successful `read()`, the call returns
`min((R - B) / 6, 127)` where `/` is `Int.tdiv`, division truncating
toward zero — it agrees with Euclidean division on nonnegative
dividends and negates with its dividend. -/
theorem read_scaling (p : Pressure) (b0 b1 : Fin 256)
    (h : p.i2c.env.txns p.i2c.pos = .ok b0 b1) :
    (Pressure.read p).1 =
      .ok (min (Int.tdiv (rawValue b0 b1 - p.baseline) 6) 127) ∧
    (∀ a : Int, 0 ≤ a → Int.tdiv a 6 = a / 6) ∧
    (∀ a : Int, Int.tdiv (-a) 6 = -Int.tdiv a 6) := by
  refine ⟨read_ok_eq p b0 b1 h, ?_, ?_⟩
  · intro a ha
    exact Int.tdiv_eq_ediv ha (by norm_num)
  · intro a
    exact Int.neg_tdiv a 6

/-- C1 witness: baseline 0, bytes `(11, 0)` (raw reading 768):
`768 / 6 = 128` is clamped to 127. -/
theorem read_scaling_witness :
    (mkDriver (fun _ => .ok 11 0) 0).i2c.env.txns
        (mkDriver (fun _ => .ok 11 0) 0).i2c.pos = .ok 11 0 ∧
    (Pressure.read (mkDriver (fun _ => .ok 11 0) 0)).1 = .ok 127 := by
  refine ⟨rfl, ?_⟩
  have h := (read_scaling (mkDriver (fun _ => .ok 11 0) 0) 11 0 rfl).1
  rw [h]
  simp only [Except.ok.injEq]
  decide

/-- C3: on a successful `read()`, a scaled value at or above 127 is
returned as exactly 127; a scaled value below 127 is returned unchanged
(no lower bound); every successful result is at most 127.  The witness
exhibits the unclamped negative case `B = 0, R = -768 ↦ -128`. -/
theorem read_clamp (p : Pressure) (b0 b1 : Fin 256)
    (h : p.i2c.env.txns p.i2c.pos = .ok b0 b1) :
    (127 ≤ Int.tdiv (rawValue b0 b1 - p.baseline) 6 →
      (Pressure.read p).1 = .ok 127) ∧
    (Int.tdiv (rawValue b0 b1 - p.baseline) 6 < 127 →
      (Pressure.read p).1 = .ok (Int.tdiv (rawValue b0 b1 - p.baseline) 6)) ∧
    (∀ v : Int, (Pressure.read p).1 = .ok v → v ≤ 127) := by
  have heq := read_ok_eq p b0 b1 h
  refine ⟨?_, ?_, ?_⟩
  · intro hge
    rw [heq, min_eq_right hge]
  · intro hlt
    rw [heq, min_eq_left (le_of_lt hlt)]
  · intro v hv
    rw [heq] at hv
    injection hv with hv
    rw [← hv]
    exact min_le_right _ _

/-- C3 witness: baseline 0, bytes `(5, 0)` (raw reading -768): the
scaled value -128 is below 127 and is returned without a lower clamp. -/
theorem read_clamp_witness :
    Int.tdiv (rawValue 5 0 - (mkDriver (fun _ => .ok 5 0) 0).baseline) 6
      < 127 ∧
    (Pressure.read (mkDriver (fun _ => .ok 5 0) 0)).1 = .ok (-128) := by
  refine ⟨by decide, ?_⟩
  have h := (read_clamp (mkDriver (fun _ => .ok 5 0) 0) 5 0 rfl).2.1 (by decide)
  rw [h]
  simp only [Except.ok.injEq]
  decide

/-- A `read_io` call can only fail with `readFailure`. -/
lemma read_io_error_eq (i2c : I2c) (e : DriverError) (s : I2c)
    (h : Pressure.read_io i2c = (.error e, s)) : e = .readFailure := by
  unfold Pressure.read_io at h
  cases ht : i2c.env.txns i2c.pos <;> rw [ht] at h
  · injection h with h1 h2
    injection h1 with h1
    exact h1.symm
  · injection h with h1 h2
    exact Except.noConfusion h1

/-- Environment in which every bus operation succeeds and every
transaction delivers bytes `(11, 0)`, i.e. raw value 768. -/
def envGood : BusEnv :=
  { newOk := true, clockSpeedOk := true, setAddrOk := true,
    txns := fun _ => .ok 11 0 }

/-- The driver `init` produces over `envGood`. -/
def pGood : Pressure :=
  { i2c := { env := envGood, pos := 1, addr := some ADDR_PRESSURE_SENSOR },
    baseline := 768 }

/-- C4: whenever `init` succeeds, the `baseline` of the returned driver
is the raw value decoded from the very first transaction on the channel
(transaction 0), and exactly one transaction was performed during
initialization (the returned handle has consumed exactly one). -/
theorem init_baseline (dbg : Bool) (env : BusEnv) (p : Pressure)
    (h : Pressure.init dbg env = .ok p) :
    (∃ b0 b1 : Fin 256,
      env.txns 0 = .ok b0 b1 ∧ p.baseline = rawValue b0 b1) ∧
    p.i2c.pos = 1 := by
  unfold Pressure.init at h
  split at h
  · split at h
    · exact Except.noConfusion h
    · split at h
      · unfold Pressure.read_io at h
        cases ht : env.txns 0 <;> simp only [ht] at h
        · exact Except.noConfusion h
        case ok b0 b1 =>
          injection h with h
          subst h
          refine ⟨⟨b0, b1, rfl, ?_⟩, rfl⟩
          show (((b0.val <<< 8) ||| b1.val : Nat) : Int) - 2048 =
            rawValue b0 b1
          rw [shiftLeft_lor_eq b0 b1, rawValue]
          push_cast
          ring
      · exact Except.noConfusion h
  · exact Except.noConfusion h

/-- C4 witness: over `envGood`, `init` yields the driver `pGood`, whose
baseline 768 is the decode of the first transaction's bytes `(11, 0)`
and whose handle has consumed exactly one transaction. -/
theorem init_baseline_witness :
    (∃ b0 b1 : Fin 256,
      envGood.txns 0 = .ok b0 b1 ∧ pGood.baseline = rawValue b0 b1) ∧
    pGood.i2c.pos = 1 :=
  init_baseline false envGood pGood (by rfl)

/-- Environment in which only the clock-speed metadata query fails. -/
def envClockFail : BusEnv :=
  { newOk := true, clockSpeedOk := false, setAddrOk := true,
    txns := fun _ => .ok 8 0 }

/-- C5 counterexample: with debug logging enabled, a failing clock-speed
query alone makes `init` fail — the bus opens, the address would be set,
and every read transaction would succeed, yet `init` returns an error
that is none of the three listed kinds.  The metadata query therefore
does introduce an additional failure of `init`, because the source
applies `?` to `i2c.clock_speed()` inside the `debug!` call. -/
theorem init_clock_speed_extra_failure :
    Pressure.init true envClockFail = .error .clockSpeedError ∧
    envClockFail.newOk = true ∧ envClockFail.setAddrOk = true ∧
    envClockFail.txns 0 = .ok 8 0 ∧
    DriverError.clockSpeedError ≠ .busUnavailable ∧
    DriverError.clockSpeedError ≠ .configurationError ∧
    DriverError.clockSpeedError ≠ .readFailure := by
  refine ⟨rfl, rfl, rfl, rfl, by decide, by decide, by decide⟩

/-- C5 amended: when debug-level logging is disabled, `init` fails only
with one of the three listed kinds (bus open, address configuration,
baseline read); the clock-speed error occurs only when debug logging is
enabled, where it is a fourth possible failure of `init`. -/
theorem init_error_kinds (dbg : Bool) (env : BusEnv) (e : DriverError)
    (h : Pressure.init dbg env = .error e) :
    (dbg = false →
      e = .busUnavailable ∨ e = .configurationError ∨ e = .readFailure) ∧
    (e = .clockSpeedError → dbg = true) := by
  unfold Pressure.init at h
  split at h
  · split at h
    case isTrue hc =>
      injection h with h
      subst h
      constructor
      · intro hdbg
        rw [hdbg] at hc
        simp at hc
      · intro _
        cases dbg
        · simp at hc
        · rfl
    case isFalse hc =>
      split at h
      · split at h
        case h_1 e' s heq =>
          injection h with h
          subst h
          have he := read_io_error_eq _ _ _ heq
          subst he
          exact ⟨fun _ => Or.inr (Or.inr rfl), fun hcs => by cases hcs⟩
        case h_2 => exact Except.noConfusion h
      · injection h with h
        subst h
        exact ⟨fun _ => Or.inr (Or.inl rfl), fun hcs => by cases hcs⟩
  · injection h with h
    subst h
    exact ⟨fun _ => Or.inl rfl, fun hcs => by cases hcs⟩

/-- C5 amended witness: over an environment whose bus cannot be opened,
`init` with debug logging disabled fails with one of the three kinds. -/
theorem init_error_kinds_witness :
    (false = false →
      DriverError.busUnavailable = .busUnavailable ∨
      DriverError.busUnavailable = .configurationError ∨
      DriverError.busUnavailable = .readFailure) ∧
    (DriverError.busUnavailable = .clockSpeedError → false = true) :=
  init_error_kinds false
    { newOk := false, clockSpeedOk := true, setAddrOk := true,
      txns := fun _ => .ok 8 0 }
    .busUnavailable (by rfl)

/-- C6: if the bus transaction inside `read()` fails, the call returns
`readFailure` and the driver's `baseline` after the call equals the
baseline before it (error atomicity of the only driver state). -/
theorem read_failure_atomic (p : Pressure)
    (h : p.i2c.env.txns p.i2c.pos = .fail) :
    (Pressure.read p).1 = .error .readFailure ∧
    (Pressure.read p).2.baseline = p.baseline := by
  refine ⟨?_, ?_⟩ <;> simp only [Pressure.read, Pressure.read_io, h]

/-- C6 witness: a driver with baseline 5 whose next transaction fails
returns `readFailure` and still has baseline 5 afterwards. -/
theorem read_failure_atomic_witness :
    (mkDriver (fun _ => .fail) 5).i2c.env.txns
        (mkDriver (fun _ => .fail) 5).i2c.pos = .fail ∧
    (Pressure.read (mkDriver (fun _ => .fail) 5)).1 =
      .error .readFailure ∧
    (Pressure.read (mkDriver (fun _ => .fail) 5)).2.baseline = 5 := by
  have h := read_failure_atomic (mkDriver (fun _ => .fail) 5) rfl
  exact ⟨rfl, h.1, h.2⟩

/-- C7: if opening the bus fails, `init` returns `busUnavailable` and no
driver instance is produced. -/
theorem init_bus_unavailable (dbg : Bool) (env : BusEnv)
    (h : env.newOk = false) :
    Pressure.init dbg env = .error .busUnavailable ∧
    ∀ q : Pressure, Pressure.init dbg env ≠ .ok q := by
  have he : Pressure.init dbg env = .error .busUnavailable := by
    unfold Pressure.init
    simp [h]
  refine ⟨he, fun q hq => ?_⟩
  rw [he] at hq
  exact Except.noConfusion hq

/-- Environment whose bus cannot be opened. -/
def envDown : BusEnv :=
  { newOk := false, clockSpeedOk := true, setAddrOk := true,
    txns := fun _ => .ok 8 0 }

/-- C7 witness: over `envDown` the bus open fails and `init` returns
`busUnavailable`. -/
theorem init_bus_unavailable_witness :
    envDown.newOk = false ∧
    Pressure.init false envDown = .error .busUnavailable :=
  ⟨rfl, (init_bus_unavailable false envDown rfl).1⟩

/-- C9: `baseline` is preserved unchanged by every `read` call,
successful or not, and two `read` calls on drivers holding the same
baseline that observe the same transaction outcome return the same
result. -/
theorem baseline_stable :
    (∀ p : Pressure, (Pressure.read p).2.baseline = p.baseline) ∧
    (∀ p q : Pressure, p.baseline = q.baseline →
      p.i2c.env.txns p.i2c.pos = q.i2c.env.txns q.i2c.pos →
      (Pressure.read p).1 = (Pressure.read q).1) := by
  constructor
  · intro p
    unfold Pressure.read
    split <;> rfl
  · intro p q hb ht
    unfold Pressure.read Pressure.read_io
    rw [ht, hb]
    cases h : q.i2c.env.txns q.i2c.pos <;> rfl

/-- C9 witness: two distinct driver values with equal baselines reading
equal raw input produce equal outputs, and a read leaves the baseline at
its old value 3. -/
theorem baseline_stable_witness :
    (Pressure.read (mkDriver (fun _ => .ok 11 0) 3)).2.baseline = 3 ∧
    (Pressure.read (mkDriver (fun _ => .ok 11 0) 3)).1 =
      (Pressure.read
        (mkDriver (fun n => if n == 0 then .ok 11 0 else .fail) 3)).1 :=
  ⟨baseline_stable.1 (mkDriver (fun _ => .ok 11 0) 3),
   baseline_stable.2 (mkDriver (fun _ => .ok 11 0) 3)
     (mkDriver (fun n => if n == 0 then .ok 11 0 else .fail) 3) rfl rfl⟩

/-- C10: the unsigned decode of any two bytes is at most 65535, so every
raw value lies in [-2048, 63487]; for any baseline and raw reading in
that interval, the subtraction, the truncating division by 6 and the min
against 127 computed by `read` all lie strictly within the 32-bit signed
range (-2147483648 < x < 2147483648, the bounds of `i32` widened by one
on the left), so none of the `i32` operations of `read_io` or `read` can
wrap around or panic. -/
theorem no_overflow :
    (∀ b0 b1 : Fin 256,
      ((b0.val <<< 8) ||| b1.val : Nat) ≤ 65535 ∧
      -2048 ≤ rawValue b0 b1 ∧ rawValue b0 b1 ≤ 63487) ∧
    (∀ B R : Int, -2048 ≤ B → B ≤ 63487 → -2048 ≤ R → R ≤ 63487 →
      -(2147483648 : Int) < R - B ∧ R - B < 2147483648 ∧
      -(2147483648 : Int) < Int.tdiv (R - B) PRESSURE_SCALING_FACTOR ∧
      Int.tdiv (R - B) PRESSURE_SCALING_FACTOR < 2147483648 ∧
      -(2147483648 : Int) <
        min (Int.tdiv (R - B) PRESSURE_SCALING_FACTOR) 127 ∧
      min (Int.tdiv (R - B) PRESSURE_SCALING_FACTOR) 127 <
        2147483648) := by
  constructor
  · intro b0 b1
    have h0 := b0.isLt
    have h1 := b1.isLt
    rw [shiftLeft_lor_eq b0 b1, rawValue]
    omega
  · intro B R hB1 hB2 hR1 hR2
    simp only [PRESSURE_SCALING_FACTOR]
    have hq : ((R - B).tdiv 6).natAbs = (R - B).natAbs / 6 :=
      Int.natAbs_tdiv (R - B) 6
    omega

/-- C10 witness: at baseline 0 and raw reading 768 (bytes `(11, 0)`),
every intermediate of the scaling arithmetic is inside the `i32`
range. -/
theorem no_overflow_witness :
    (-2048 ≤ rawValue 11 0 ∧ rawValue 11 0 ≤ 63487) ∧
    (-(2147483648 : Int) <
       Int.tdiv ((768 : Int) - 0) PRESSURE_SCALING_FACTOR ∧
     Int.tdiv ((768 : Int) - 0) PRESSURE_SCALING_FACTOR < 2147483648) := by
  have h1 := (no_overflow.1 11 0)
  have h2 := no_overflow.2 0 768 (by decide) (by decide) (by decide)
    (by decide)
  exact ⟨⟨h1.2.1, h1.2.2⟩, ⟨h2.2.2.1, h2.2.2.2.1⟩⟩

end Haxo
